import Mathlib

/-!
Verification of the dungeons-n-diagrams puzzle solver
(src/dungeons_n_diagrams.py).

The program compiles a puzzle instance into a conjunction of boolean
constraints over one wall variable and one treasure-room variable per
in-bounds tile, plus a single `out_of_bounds` variable constrained to
`true` that stands in for every lookup outside the grid.  A generic
satisfiability backend then enumerates the models, blocking each found
model's wall assignment before re-checking.

This file is a shallow embedding of that pipeline: `Assignment` models a
backend model (a concrete value for every variable), `satisfies` is the
conjunction of the exact constraints `print_dungeon_solutions` asserts,
`traceOK` is the model-blocking enumeration loop, and `render`/`parseGrid`
embed the output rendering and its re-parsing.
-/

namespace DnD

/-- The `Dungeon` dataclass: column hints, row hints, monster coordinates
and treasure coordinates.  Coordinates are Python ints, embedded as `ℤ`;
the grid width is the number of column hints and the height the number of
row hints, exactly as `print_dungeon_solutions` computes them. -/
structure Dungeon where
  col_hints : List ℤ
  row_hints : List ℤ
  monsters : List (ℤ × ℤ)
  treasures : List (ℤ × ℤ)

/-- `width = len(col_hints)`. -/
abbrev Dungeon.W (d : Dungeon) : ℕ := d.col_hints.length

/-- `height = len(row_hints)`. -/
abbrev Dungeon.H (d : Dungeon) : ℕ := d.row_hints.length

/-- A backend model: the value of the `out_of_bounds` variable, the values
of the wall variables `w_x_y`, and the values of the treasure-room
variables `t_x_y`, for every in-bounds tile. -/
abbrev Assignment (W H : ℕ) : Type :=
  Bool × (Fin W → Fin H → Bool) × (Fin W → Fin H → Bool)

/-- Lookup in `wall_map`: the defaultdict returns the wall variable for an
in-bounds tile and the shared `out_of_bounds` variable for any coordinate
outside `[0,W) x [0,H)`. -/
def wallAt (W H : ℕ) (σ : Assignment W H) (x y : ℤ) : Bool :=
  if hx : 0 ≤ x ∧ x < (W : ℤ) then
    if hy : 0 ≤ y ∧ y < (H : ℤ) then
      σ.2.1 ⟨x.toNat, by omega⟩ ⟨y.toNat, by omega⟩
    else σ.1
  else σ.1

/-- Lookup in `treasure_map`.  The source only ever reads in-bounds
entries (every loop touching it ranges over `product(range(width),
range(height))`), so the out-of-bounds branch is never reached; it is set
to `false` here. -/
def tmapAt (W H : ℕ) (σ : Assignment W H) (x y : ℤ) : Bool :=
  if hx : 0 ≤ x ∧ x < (W : ℤ) then
    if hy : 0 ≤ y ∧ y < (H : ℤ) then
      σ.2.2 ⟨x.toNat, by omega⟩ ⟨y.toNat, by omega⟩
    else false
  else false

/-- `BoolCount`: the sum over a sequence of booleans of `If(b, 1, 0)`. -/
def boolCount (l : List Bool) : ℤ :=
  (l.map fun b => if b then (1 : ℤ) else 0).sum

/-- `product(range(width), range(height))`: the in-bounds tiles, x outer,
y inner, as integer coordinates. -/
def tiles (W H : ℕ) : List (ℤ × ℤ) :=
  (List.range W).flatMap fun (x : ℕ) => (List.range H).map fun (y : ℕ) => ((x : ℤ), (y : ℤ))

/-- `column(grid, x) = [grid[x][y] for y in range(height)]`. -/
def column (W H : ℕ) (σ : Assignment W H) (x : ℕ) : List Bool :=
  (List.range H).map fun (y : ℕ) => wallAt W H σ (x : ℤ) (y : ℤ)

/-- `row(grid, y) = [grid[x][y] for x in range(width)]`. -/
def row (W H : ℕ) (σ : Assignment W H) (y : ℕ) : List Bool :=
  (List.range W).map fun (x : ℕ) => wallAt W H σ (x : ℤ) (y : ℤ)

/-- `neighbours(grid, x, y)`: the four orthogonal lookups, in source
order up, right, down, left. -/
def neighbours (W H : ℕ) (σ : Assignment W H) (x y : ℤ) : List Bool :=
  [wallAt W H σ x (y - 1), wallAt W H σ (x + 1) y,
   wallAt W H σ x (y + 1), wallAt W H σ (x - 1) y]

/-- `range_inc(start, stop) = range(start, stop+1)` over integers. -/
def range_inc (lo hi : ℤ) : List ℤ :=
  (List.range (hi + 1 - lo).toNat).map fun (i : ℕ) => lo + (i : ℤ)

/-- `product(as, bs)` for two integer lists, first component outer. -/
def prodList (as bs : List ℤ) : List (ℤ × ℤ) :=
  as.flatMap fun a => bs.map fun b => (a, b)

/-- `treasure_room_positions(x, y)`: all centers `(cx,cy)` with
`|cx-x| ≤ 1`, `|cy-y| ≤ 1` whose 3x3 room fits strictly inside the grid
(the source skips `cx <= 0 or cx >= width-1 or cy <= 0 or cy >= height-1`). -/
def treasure_room_positions (W H : ℕ) (x y : ℤ) : List (ℤ × ℤ) :=
  (prodList (range_inc (x - 1) (x + 1)) (range_inc (y - 1) (y + 1))).filter
    fun c => !(decide (c.1 ≤ 0) || decide ((W : ℤ) - 1 ≤ c.1) ||
               decide (c.2 ≤ 0) || decide ((H : ℤ) - 1 ≤ c.2))

/-- `are_rooms_too_close(a, b)`: overlap test of `b`'s room inflated to
5x5 against `a`'s 3x3 room. -/
def are_rooms_too_close (a b : ℤ × ℤ) : Bool :=
  decide (b.1 - 2 ≤ a.1 + 1) && decide (a.1 - 1 ≤ b.1 + 2) &&
  decide (b.2 - 2 ≤ a.2 + 1) && decide (a.2 - 1 ≤ b.2 + 2)

/-- `itertools.combinations(l, 2)`: all ordered-by-position pairs. -/
def pairs {α : Type} : List α → List (α × α)
  | [] => []
  | a :: rest => (rest.map fun b => (a, b)) ++ pairs rest

/-- `itertools.product(*ls)`: the cross product of a list of lists,
rightmost factor varying fastest; `listProd [] = [[]]` just as
`product()` yields one empty tuple. -/
def listProd {α : Type} : List (List α) → List (List α)
  | [] => [[]]
  | l :: ls => l.flatMap fun a => (listProd ls).map fun cs => a :: cs

/-- The 3x3 block of tiles of the room centered at `c` (the tiles the
source marks in the bitmap `m`). -/
def roomTiles (c : ℤ × ℤ) : List (ℤ × ℤ) :=
  prodList (range_inc (c.1 - 1) (c.1 + 1)) (range_inc (c.2 - 1) (c.2 + 1))

/-- `wall_positions`: the 12 perimeter positions of the room centered at
`(x,y)`, in source order. -/
def roomWallPositions (c : ℤ × ℤ) : List (ℤ × ℤ) :=
  [(c.1 - 2, c.2 - 1), (c.1 - 2, c.2), (c.1 - 2, c.2 + 1),
   (c.1 + 2, c.2 - 1), (c.1 + 2, c.2), (c.1 + 2, c.2 + 1),
   (c.1 - 1, c.2 - 2), (c.1, c.2 - 2), (c.1 + 1, c.2 - 2),
   (c.1 - 1, c.2 + 2), (c.1, c.2 + 2), (c.1 + 1, c.2 + 2)]

/-- The bitmap `m` of one layout: a tile is marked iff it lies in the 3x3
room of some chosen center. -/
def inAnyRoom (cs : List (ℤ × ℤ)) (p : ℤ × ℤ) : Bool :=
  cs.any fun c => (roomTiles c).contains p

/-- One treasure-room layout constraint (one `And(...)` appended to
`treasure_room_constraints`): per chosen center, exactly 11 of the 12
perimeter lookups are walls; per in-bounds tile, a marked tile is not a
wall and the treasure-room variable equals the bitmap. -/
def layoutOK (d : Dungeon) (cs : List (ℤ × ℤ)) (σ : Assignment d.W d.H) : Bool :=
  cs.all (fun c =>
    boolCount ((roomWallPositions c).map fun q => wallAt d.W d.H σ q.1 q.2) == 11) &&
  (tiles d.W d.H).all fun p =>
    (!(inAnyRoom cs p) || (wallAt d.W d.H σ p.1 p.2 == false)) &&
    (tmapAt d.W d.H σ p.1 p.2 == inAnyRoom cs p)

/-- The per-treasure candidate center lists, in treasure order. -/
def candidateLists (d : Dungeon) : List (List (ℤ × ℤ)) :=
  d.treasures.map fun t => treasure_room_positions d.W d.H t.1 t.2

/-- The center combinations that survive the too-close filter (the
combinations not skipped by the `continue`). -/
def survivingCombos (d : Dungeon) : List (List (ℤ × ℤ)) :=
  (listProd (candidateLists d)).filter fun cs =>
    !((pairs cs).any fun ab => are_rooms_too_close ab.1 ab.2)

/-- `s.add(Or(treasure_room_constraints))`: the disjunction over all
surviving layouts; `Or` of an empty list is `false`. -/
def roomDisjunction (d : Dungeon) (σ : Assignment d.W d.H) : Bool :=
  (survivingCombos d).any fun cs => layoutOK d cs σ

/-- The full conjunction of constraints `print_dungeon_solutions` asserts
into the solver, in assertion order: the `out_of_bounds` variable is
true; monster and treasure tiles are not walls; if there are no treasures
every treasure-room variable is false; the treasure-room disjunction; the
column hints; the row hints; each monster has exactly 3 wall neighbours;
no dead end without a monster; no 2x2 open space outside a treasure
room.  A backend model is a reported solution exactly when this is true. -/
def satisfies (d : Dungeon) (σ : Assignment d.W d.H) : Bool :=
  (σ.1 == true) &&
  ((d.monsters ++ d.treasures).all fun p => wallAt d.W d.H σ p.1 p.2 == false) &&
  (!d.treasures.isEmpty ||
    (tiles d.W d.H).all fun p => tmapAt d.W d.H σ p.1 p.2 == false) &&
  roomDisjunction d σ &&
  ((List.range d.W).all fun x => boolCount (column d.W d.H σ x) == d.col_hints.getD x 0) &&
  ((List.range d.H).all fun y => boolCount (row d.W d.H σ y) == d.row_hints.getD y 0) &&
  (d.monsters.all fun p => boolCount (neighbours d.W d.H σ p.1 p.2) == 3) &&
  ((tiles d.W d.H).all fun p =>
    !((boolCount (neighbours d.W d.H σ p.1 p.2) == 3) && !(d.monsters.contains p)) ||
    wallAt d.W d.H σ p.1 p.2) &&
  ((tiles d.W d.H).all fun p =>
    !(!(wallAt d.W d.H σ p.1 p.2) && !(tmapAt d.W d.H σ p.1 p.2)) ||
    (wallAt d.W d.H σ (p.1 + 1) p.2 || wallAt d.W d.H σ p.1 (p.2 + 1) ||
     wallAt d.W d.H σ (p.1 + 1) (p.2 + 1)))

/-- The compiled constraint set has a model. -/
def satisfiable (d : Dungeon) : Prop :=
  ∃ σ : Assignment d.W d.H, satisfies d σ = true

instance (d : Dungeon) : Decidable (satisfiable d) :=
  inferInstanceAs (Decidable (∃ σ : Assignment d.W d.H, satisfies d σ = true))

/-- Outcome of the initial `s.check()`: either the program prints
`Impossible. Did you mistype something?` and returns, or it goes on to
enumerate and print solutions.  There is no other exit: the source has no
input validation and no other error path. -/
inductive Report where
  | impossible : Report
  | solutionsFound : Report
deriving DecidableEq

/-- The branch taken at the initial satisfiability check. -/
def reportOf (d : Dungeon) : Report :=
  if satisfiable d then Report.solutionsFound else Report.impossible

/-- The blocking clause added after recording model `m`:
`Or([wall_map[x][y] != m[wall_map[x][y]] for (x,y) in product(...)])`. -/
def blocks (W H : ℕ) (m σ : Assignment W H) : Bool :=
  (tiles W H).any fun p => wallAt W H σ p.1 p.2 != wallAt W H m p.1 p.2

/-- A possible run of the enumeration loop: every recorded model
satisfies the compiled constraints and also satisfies the blocking clause
of every earlier recorded model. -/
def traceOK (d : Dungeon) : List (Assignment d.W d.H) → Bool
  | [] => true
  | m :: rest =>
    satisfies d m && (rest.all fun later => blocks d.W d.H m later) && traceOK d rest

/-- One character of the printed grid: monster marker, treasure marker,
wall glyph or floor glyph. -/
def renderChar (d : Dungeon) (σ : Assignment d.W d.H) (x y : ℕ) : Char :=
  if d.monsters.contains ((x : ℤ), (y : ℤ)) then 'M'
  else if d.treasures.contains ((x : ℤ), (y : ℤ)) then 'T'
  else if wallAt d.W d.H σ (x : ℤ) (y : ℤ) then '█' else '░'

/-- The printed grid of one solution: one row per y, one column per x. -/
def render (d : Dungeon) (σ : Assignment d.W d.H) : List (List Char) :=
  (List.range d.H).map fun y => (List.range d.W).map fun x => renderChar d σ x y

/-- Re-parsing a printed grid into wall values: exactly the wall glyph
reads back as wall; monster and treasure glyphs read as non-wall. -/
def parseGrid (g : List (List Char)) : List (List Bool) :=
  g.map fun r => r.map fun c => c == '█'

/-! ### Concrete instances used by the witnesses -/

/-- Index a row-major list-of-rows grid as a function, `false` padded. -/
def gridOfRows (rows : List (List Bool)) {W H : ℕ} : Fin W → Fin H → Bool :=
  fun x y => ((rows.getD y.val []).getD x.val false)

/-- A 6x6 instance with one monster at (4,2) and one treasure at (1,1). -/
def dEx : Dungeon :=
  { col_hints := [3, 3, 0, 4, 2, 6]
    row_hints := [3, 3, 2, 3, 4, 3]
    monsters := [(4, 2)]
    treasures := [(1, 1)] }

/-- Wall grid of a solution of `dEx`: a 3x3 treasure room in the top-left
corner, its entrance at (2,3) opening into a corridor loop, and a
dead-end cell at the monster (4,2). -/
def exWallRows : List (List Bool) :=
  [[false, false, false, true,  true,  true],
   [false, false, false, true,  true,  true],
   [false, false, false, true,  false, true],
   [true,  true,  false, false, false, true],
   [true,  true,  false, true,  false, true],
   [true,  true,  false, false, false, true]]

/-- Treasure-room grid of the same solution: the 3x3 block at the
top-left corner. -/
def exTmapRows : List (List Bool) :=
  [[true,  true,  true,  false, false, false],
   [true,  true,  true,  false, false, false],
   [true,  true,  true,  false, false, false],
   [false, false, false, false, false, false],
   [false, false, false, false, false, false],
   [false, false, false, false, false, false]]

/-- The model of `dEx` built from the two grids. -/
def mEx : Assignment dEx.W dEx.H :=
  (true, gridOfRows exWallRows, gridOfRows exTmapRows)

/-- `mEx` satisfies every compiled constraint of `dEx`. -/
theorem satisfies_dEx_mEx : satisfies dEx mEx = true := by decide

/-- A 2x2 instance with two solutions (the two diagonals). -/
def d2 : Dungeon :=
  { col_hints := [1, 1], row_hints := [1, 1], monsters := [], treasures := [] }

/-- First solution of `d2`: walls on the main diagonal. -/
def mA : Assignment d2.W d2.H :=
  (true, fun x y => x.val == y.val, fun _ _ => false)

/-- Second solution of `d2`: walls on the anti-diagonal. -/
def mB : Assignment d2.W d2.H :=
  (true, fun x y => !(x.val == y.val), fun _ _ => false)

/-- A 1x1 instance whose single treasure has no candidate room center. -/
def d6 : Dungeon :=
  { col_hints := [0], row_hints := [0], monsters := [], treasures := [(0, 0)] }

/-- A 1x1 instance with an out-of-bounds monster coordinate. -/
def d7 : Dungeon :=
  { col_hints := [0], row_hints := [0], monsters := [(5, 0)], treasures := [] }

/-! ### Helper lemmas -/

/-- `getD` with an in-bounds index is `get`. -/
theorem getD_eq_get : ∀ (l : List ℤ) (i : ℕ) (h : i < l.length), l.getD i 0 = l.get ⟨i, h⟩
  | _ :: _, 0, _ => rfl
  | _ :: t, i + 1, h => getD_eq_get t i (by simpa using h)

/-- Membership in the in-bounds tile list. -/
theorem mem_tiles {W H : ℕ} {p : ℤ × ℤ} :
    p ∈ tiles W H ↔ 0 ≤ p.1 ∧ p.1 < (W : ℤ) ∧ 0 ≤ p.2 ∧ p.2 < (H : ℤ) := by
  obtain ⟨a, b⟩ := p
  dsimp only
  constructor
  · intro hp
    rw [tiles, List.mem_flatMap] at hp
    obtain ⟨x, hx, hp⟩ := hp
    rw [List.mem_map] at hp
    obtain ⟨y, hy, hpe⟩ := hp
    rw [List.mem_range] at hx
    rw [List.mem_range] at hy
    rw [Prod.mk.injEq] at hpe
    obtain ⟨e1, e2⟩ := hpe
    exact ⟨by omega, by omega, by omega, by omega⟩
  · rintro ⟨h1, h2, h3, h4⟩
    rw [tiles, List.mem_flatMap]
    refine ⟨a.toNat, by rw [List.mem_range]; omega, ?_⟩
    rw [List.mem_map]
    exact ⟨b.toNat, by rw [List.mem_range]; omega,
      by rw [Prod.mk.injEq]; constructor <;> omega⟩

/-- Unfolding of `wallAt` at an in-bounds coordinate. -/
theorem wallAt_inb {W H : ℕ} (σ : Assignment W H) {x y : ℤ}
    (hx : 0 ≤ x ∧ x < (W : ℤ)) (hy : 0 ≤ y ∧ y < (H : ℤ)) :
    wallAt W H σ x y = σ.2.1 ⟨x.toNat, by omega⟩ ⟨y.toNat, by omega⟩ := by
  rw [wallAt, dif_pos hx, dif_pos hy]

/-- `wallAt` at an out-of-bounds coordinate is the `out_of_bounds`
variable. -/
theorem wallAt_oob {W H : ℕ} (σ : Assignment W H) {x y : ℤ}
    (h : ¬(0 ≤ x ∧ x < (W : ℤ)) ∨ ¬(0 ≤ y ∧ y < (H : ℤ))) :
    wallAt W H σ x y = σ.1 := by
  by_cases hx : 0 ≤ x ∧ x < (W : ℤ)
  · rcases h with h | h
    · exact absurd hx h
    · rw [wallAt, dif_pos hx, dif_neg h]
  · rw [wallAt, dif_neg hx]

/-- The conjuncts of the compiled constraint set, extracted one by one
from a satisfying model. -/
theorem satisfies_parts {d : Dungeon} {σ : Assignment d.W d.H} (h : satisfies d σ = true) :
    σ.1 = true
    ∧ (∀ p ∈ d.monsters ++ d.treasures, wallAt d.W d.H σ p.1 p.2 = false)
    ∧ (d.treasures.isEmpty = true → ∀ p ∈ tiles d.W d.H, tmapAt d.W d.H σ p.1 p.2 = false)
    ∧ roomDisjunction d σ = true
    ∧ (∀ x ∈ List.range d.W, boolCount (column d.W d.H σ x) = d.col_hints.getD x 0)
    ∧ (∀ y ∈ List.range d.H, boolCount (row d.W d.H σ y) = d.row_hints.getD y 0)
    ∧ (∀ p ∈ d.monsters, boolCount (neighbours d.W d.H σ p.1 p.2) = 3)
    ∧ (∀ p ∈ tiles d.W d.H, boolCount (neighbours d.W d.H σ p.1 p.2) = 3 →
         d.monsters.contains p = false → wallAt d.W d.H σ p.1 p.2 = true)
    ∧ (∀ p ∈ tiles d.W d.H, wallAt d.W d.H σ p.1 p.2 = false →
         tmapAt d.W d.H σ p.1 p.2 = false →
         (wallAt d.W d.H σ (p.1 + 1) p.2 || wallAt d.W d.H σ p.1 (p.2 + 1) ||
          wallAt d.W d.H σ (p.1 + 1) (p.2 + 1)) = true) := by
  unfold satisfies at h
  simp only [Bool.and_eq_true, List.all_eq_true, beq_iff_eq] at h
  obtain ⟨⟨⟨⟨⟨⟨⟨⟨h1, h2⟩, h3⟩, h4⟩, h5⟩, h6⟩, h7⟩, h8⟩, h9⟩ := h
  refine ⟨h1, h2, ?_, h4, h5, h6, h7, ?_, ?_⟩
  · intro hemp p hp
    rcases (Bool.or_eq_true _ _).mp h3 with h3 | h3
    · rw [Bool.not_eq_true'] at h3
      rw [hemp] at h3
      exact absurd h3 (by simp)
    · exact eq_of_beq (List.all_eq_true.mp h3 p hp)
  · intro p hp hcount hcontains
    have hthis := h8 p hp
    rcases (Bool.or_eq_true _ _).mp hthis with hl | hr
    · rw [Bool.not_eq_true'] at hl
      rw [Bool.and_eq_false_iff] at hl
      rcases hl with hl | hl
      · rw [beq_eq_false_iff_ne] at hl
        exact absurd hcount hl
      · have hc : d.monsters.contains p = true := by simpa using hl
        rw [hcontains] at hc
        exact absurd hc (by simp)
    · exact hr
  · intro p hp hwall htmap
    have hthis := h9 p hp
    rcases (Bool.or_eq_true _ _).mp hthis with hl | hr
    · rw [Bool.not_eq_true'] at hl
      rw [Bool.and_eq_false_iff] at hl
      rcases hl with hl | hl
      · have hc : wallAt d.W d.H σ p.1 p.2 = true := by simpa using hl
        rw [hwall] at hc
        exact absurd hc (by simp)
      · have hc : tmapAt d.W d.H σ p.1 p.2 = true := by simpa using hl
        rw [htmap] at hc
        exact absurd hc (by simp)
    · exact hr

/-- A pair of in-range natural coordinates is an in-bounds tile. -/
theorem natPair_mem_tiles {W H x y : ℕ} (hx : x < W) (hy : y < H) :
    ((x : ℤ), (y : ℤ)) ∈ tiles W H := by
  rw [mem_tiles]
  dsimp only
  exact ⟨Int.natCast_nonneg x, by exact_mod_cast hx,
    Int.natCast_nonneg y, by exact_mod_cast hy⟩

/-- Membership in an inclusive integer range. -/
theorem mem_range_inc {lo hi a : ℤ} : a ∈ range_inc lo hi ↔ lo ≤ a ∧ a ≤ hi := by
  rw [range_inc]
  constructor
  · intro h
    rw [List.mem_map] at h
    obtain ⟨i, hi, rfl⟩ := h
    rw [List.mem_range] at hi
    omega
  · rintro ⟨h1, h2⟩
    rw [List.mem_map]
    exact ⟨(a - lo).toNat, by rw [List.mem_range]; omega, by omega⟩

/-- Membership in the product of two integer lists. -/
theorem mem_prodList {as bs : List ℤ} {p : ℤ × ℤ} :
    p ∈ prodList as bs ↔ p.1 ∈ as ∧ p.2 ∈ bs := by
  obtain ⟨a, b⟩ := p
  dsimp only
  rw [prodList]
  constructor
  · intro h
    rw [List.mem_flatMap] at h
    obtain ⟨x, hx, h⟩ := h
    rw [List.mem_map] at h
    obtain ⟨y, hy, he⟩ := h
    rw [Prod.mk.injEq] at he
    obtain ⟨rfl, rfl⟩ := he
    exact ⟨hx, hy⟩
  · rintro ⟨h1, h2⟩
    rw [List.mem_flatMap]
    exact ⟨a, h1, List.mem_map.mpr ⟨b, h2, rfl⟩⟩

/-- Membership in the 3x3 tile block of a room. -/
theorem mem_roomTiles {c q : ℤ × ℤ} :
    q ∈ roomTiles c ↔
      c.1 - 1 ≤ q.1 ∧ q.1 ≤ c.1 + 1 ∧ c.2 - 1 ≤ q.2 ∧ q.2 ≤ c.2 + 1 := by
  rw [roomTiles, mem_prodList, mem_range_inc, mem_range_inc]
  tauto

/-- What membership in the candidate center list gives: the center is
within distance 1 of the treasure and leaves a 1-tile border. -/
theorem mem_treasure_room_positions {W H : ℕ} {x y : ℤ} {c : ℤ × ℤ}
    (h : c ∈ treasure_room_positions W H x y) :
    (x - 1 ≤ c.1 ∧ c.1 ≤ x + 1 ∧ y - 1 ≤ c.2 ∧ c.2 ≤ y + 1) ∧
    (0 < c.1 ∧ c.1 < (W : ℤ) - 1 ∧ 0 < c.2 ∧ c.2 < (H : ℤ) - 1) := by
  rw [treasure_room_positions, List.mem_filter] at h
  obtain ⟨hmem, hcond⟩ := h
  rw [mem_prodList, mem_range_inc, mem_range_inc] at hmem
  refine ⟨⟨hmem.1.1, hmem.1.2, hmem.2.1, hmem.2.2⟩, ?_⟩
  simp only [Bool.not_eq_true', Bool.or_eq_false_iff, decide_eq_false_iff_not] at hcond
  omega

/-- Membership in the cross product of a list of lists: same length and
componentwise membership. -/
theorem mem_listProd {α : Type} :
    ∀ {ls : List (List α)} {cs : List α}, cs ∈ listProd ls →
      cs.length = ls.length ∧
      ∀ i (hc : i < cs.length) (hl : i < ls.length),
        cs.get ⟨i, hc⟩ ∈ ls.get ⟨i, hl⟩ := by
  intro ls
  induction ls with
  | nil =>
    intro cs h
    simp only [listProd] at h
    rw [List.mem_singleton] at h
    subst h
    exact ⟨rfl, by intro i hc hl; simp at hc⟩
  | cons l ls ih =>
    intro cs h
    simp only [listProd] at h
    rw [List.mem_flatMap] at h
    obtain ⟨a, ha, h⟩ := h
    rw [List.mem_map] at h
    obtain ⟨cs', hcs', rfl⟩ := h
    obtain ⟨hlen, hidx⟩ := ih hcs'
    refine ⟨by simp [hlen], ?_⟩
    intro i hc hl
    cases i with
    | zero => simpa using ha
    | succ k => exact hidx k (by simpa using hc) (by simpa using hl)

/-- Every position-ordered pair of list elements occurs in `pairs`. -/
theorem mem_pairs_of_lt {α : Type} :
    ∀ (l : List α) (i j : ℕ) (hi : i < l.length) (hj : j < l.length), i < j →
      (l.get ⟨i, hi⟩, l.get ⟨j, hj⟩) ∈ pairs l := by
  intro l
  induction l with
  | nil => intro i j hi _ _; simp at hi
  | cons a t ih =>
    intro i j hi hj hij
    cases i with
    | zero =>
      cases j with
      | zero => omega
      | succ k =>
        simp only [pairs]
        apply List.mem_append_left
        rw [List.mem_map]
        exact ⟨t.get ⟨k, by simpa using hj⟩, List.get_mem t _ _, rfl⟩
    | succ m =>
      cases j with
      | zero => omega
      | succ k =>
        simp only [pairs]
        apply List.mem_append_right
        exact ih m k (by simpa using hi) (by simpa using hj) (by omega)

/-! ### The claims -/

/-- Claim C1: in every reported solution the number of walls in column x
equals `colHints[x]` for every x in [0,W), and the number of walls in row
y equals `rowHints[y]` for every y in [0,H). -/
theorem C1_hints_match (d : Dungeon) (σ : Assignment d.W d.H) (h : satisfies d σ = true) :
    (∀ x (hx : x < d.W), boolCount (column d.W d.H σ x) = d.col_hints.get ⟨x, hx⟩) ∧
    (∀ y (hy : y < d.H), boolCount (row d.W d.H σ y) = d.row_hints.get ⟨y, hy⟩) := by
  obtain ⟨-, -, -, -, h5, h6, -, -, -⟩ := satisfies_parts h
  constructor
  · intro x hx
    rw [← getD_eq_get d.col_hints x hx]
    exact h5 x (List.mem_range.mpr hx)
  · intro y hy
    rw [← getD_eq_get d.row_hints y hy]
    exact h6 y (List.mem_range.mpr hy)

/-- Witness for C1 at the concrete solved instance `dEx`. -/
theorem C1_hints_match_witness :
    satisfies dEx mEx = true ∧
    boolCount (column dEx.W dEx.H mEx 0) = dEx.col_hints.get ⟨0, by decide⟩ :=
  ⟨satisfies_dEx_mEx, (C1_hints_match dEx mEx satisfies_dEx_mEx).1 0 (by decide)⟩

/-- Claim C2: in every reported solution, every monster tile is not a
wall and exactly 3 of its 4 orthogonal neighbours are walls (out-of-bounds
lookups resolve to the `out_of_bounds` variable, which the constraint set
forces to `true`, so the boundary counts as wall). -/
theorem C2_monster_dead_ends (d : Dungeon) (σ : Assignment d.W d.H)
    (h : satisfies d σ = true) :
    ∀ p ∈ d.monsters, wallAt d.W d.H σ p.1 p.2 = false ∧
      boolCount (neighbours d.W d.H σ p.1 p.2) = 3 := by
  obtain ⟨-, h2, -, -, -, -, h7, -, -⟩ := satisfies_parts h
  intro p hp
  exact ⟨h2 p (List.mem_append_left _ hp), h7 p hp⟩

/-- Witness for C2 at the monster (4,2) of `dEx`. -/
theorem C2_monster_dead_ends_witness :
    satisfies dEx mEx = true ∧
    (wallAt dEx.W dEx.H mEx 4 2 = false ∧
     boolCount (neighbours dEx.W dEx.H mEx 4 2) = 3) :=
  ⟨satisfies_dEx_mEx, C2_monster_dead_ends dEx mEx satisfies_dEx_mEx (4, 2) (by decide)⟩

/-- Claim C3: in every reported solution, every in-bounds non-monster
tile with exactly 3 wall neighbours is itself a wall. -/
theorem C3_no_unmarked_dead_ends (d : Dungeon) (σ : Assignment d.W d.H)
    (h : satisfies d σ = true) :
    ∀ (x y : ℕ), x < d.W → y < d.H →
      d.monsters.contains ((x : ℤ), (y : ℤ)) = false →
      boolCount (neighbours d.W d.H σ (x : ℤ) (y : ℤ)) = 3 →
      wallAt d.W d.H σ (x : ℤ) (y : ℤ) = true := by
  obtain ⟨-, -, -, -, -, -, -, h8, -⟩ := satisfies_parts h
  intro x y hx hy hcont hcount
  exact h8 _ (natPair_mem_tiles hx hy) hcount hcont

/-- Witness for C3 at tile (4,1) of `dEx`, a wall with 3 wall
neighbours. -/
theorem C3_no_unmarked_dead_ends_witness :
    satisfies dEx mEx = true ∧
    boolCount (neighbours dEx.W dEx.H mEx 4 1) = 3 ∧
    wallAt dEx.W dEx.H mEx 4 1 = true :=
  ⟨satisfies_dEx_mEx, by decide,
    C3_no_unmarked_dead_ends dEx mEx satisfies_dEx_mEx 4 1 (by decide) (by decide)
      (by decide) (by decide)⟩

/-- Claim C4: in every reported solution, every in-bounds floor tile that
is not a treasure-room tile has a wall among its right, below and
diagonal neighbours (out-of-bounds counting as wall). -/
theorem C4_no_2x2_open (d : Dungeon) (σ : Assignment d.W d.H)
    (h : satisfies d σ = true) :
    ∀ (x y : ℕ), x < d.W → y < d.H →
      wallAt d.W d.H σ (x : ℤ) (y : ℤ) = false →
      tmapAt d.W d.H σ (x : ℤ) (y : ℤ) = false →
      (wallAt d.W d.H σ ((x : ℤ) + 1) (y : ℤ) ||
       wallAt d.W d.H σ (x : ℤ) ((y : ℤ) + 1) ||
       wallAt d.W d.H σ ((x : ℤ) + 1) ((y : ℤ) + 1)) = true := by
  obtain ⟨-, -, -, -, -, -, -, -, h9⟩ := satisfies_parts h
  intro x y hx hy hw ht
  exact h9 _ (natPair_mem_tiles hx hy) hw ht

/-- Claim C5: in every reported solution of an instance with at least
one treasure, there is one chosen room center per treasure such that the
treasure lies in the center's 3x3 block, the whole block is floor, the 12
perimeter positions hold exactly 11 walls, and no two chosen centers
violate the 1-tile separation rule (5x5 against 3x3 overlap test). -/
theorem C5_treasure_rooms (d : Dungeon) (σ : Assignment d.W d.H)
    (h : satisfies d σ = true) (_hne : d.treasures ≠ []) :
    ∃ cs : List (ℤ × ℤ),
      cs.length = d.treasures.length ∧
      (∀ i (hc : i < cs.length) (ht : i < d.treasures.length),
        d.treasures.get ⟨i, ht⟩ ∈ roomTiles (cs.get ⟨i, hc⟩) ∧
        (∀ q ∈ roomTiles (cs.get ⟨i, hc⟩), wallAt d.W d.H σ q.1 q.2 = false) ∧
        boolCount ((roomWallPositions (cs.get ⟨i, hc⟩)).map
          fun q => wallAt d.W d.H σ q.1 q.2) = 11) ∧
      (∀ i j (hi : i < cs.length) (hj : j < cs.length), i < j →
        are_rooms_too_close (cs.get ⟨i, hi⟩) (cs.get ⟨j, hj⟩) = false) := by
  obtain ⟨-, -, -, h4, -, -, -, -, -⟩ := satisfies_parts h
  rw [roomDisjunction, List.any_eq_true] at h4
  obtain ⟨cs, hcs_mem, hlay⟩ := h4
  rw [survivingCombos, List.mem_filter] at hcs_mem
  obtain ⟨hprod, hclose⟩ := hcs_mem
  obtain ⟨hlen, hidx⟩ := mem_listProd hprod
  have hlenc : (candidateLists d).length = d.treasures.length := by
    rw [candidateLists, List.length_map]
  have hlen' : cs.length = d.treasures.length := by rw [hlen, hlenc]
  rw [layoutOK, Bool.and_eq_true] at hlay
  obtain ⟨hl1, hl2⟩ := hlay
  rw [List.all_eq_true] at hl1
  rw [List.all_eq_true] at hl2
  refine ⟨cs, hlen', ?_, ?_⟩
  · intro i hc ht
    have hm : i < (candidateLists d).length := by omega
    have hcand := hidx i hc hm
    have hcget : (candidateLists d).get ⟨i, hm⟩ =
        treasure_room_positions d.W d.H
          (d.treasures.get ⟨i, ht⟩).1 (d.treasures.get ⟨i, ht⟩).2 := by
      simp [candidateLists]
    rw [hcget] at hcand
    obtain ⟨hnear, hbounds⟩ := mem_treasure_room_positions hcand
    refine ⟨?_, ?_, ?_⟩
    · rw [mem_roomTiles]
      refine ⟨by omega, by omega, by omega, by omega⟩
    · intro q hq
      have hqb := mem_roomTiles.mp hq
      have hqt : q ∈ tiles d.W d.H :=
        mem_tiles.mpr ⟨by omega, by omega, by omega, by omega⟩
      have hmarked : inAnyRoom cs q = true := by
        rw [inAnyRoom, List.any_eq_true]
        refine ⟨cs.get ⟨i, hc⟩, List.get_mem cs _ _, ?_⟩
        simpa using hq
      have htile := hl2 q hqt
      rw [Bool.and_eq_true] at htile
      obtain ⟨hA, _⟩ := htile
      rcases (Bool.or_eq_true _ _).mp hA with hA | hA
      · rw [Bool.not_eq_true'] at hA
        rw [hmarked] at hA
        exact absurd hA (by simp)
      · exact eq_of_beq hA
    · exact eq_of_beq (hl1 _ (List.get_mem cs _ _))
  · intro i j hi hj hij
    have hpair := mem_pairs_of_lt cs i j hi hj hij
    rw [Bool.not_eq_true'] at hclose
    rw [List.any_eq_false] at hclose
    exact Bool.eq_false_iff.mpr (hclose _ hpair)

/-- Witness for C5 at the concrete solved instance `dEx` with its one
treasure. -/
theorem C5_treasure_rooms_witness :
    satisfies dEx mEx = true ∧ dEx.treasures ≠ [] ∧
    (∃ cs : List (ℤ × ℤ),
      cs.length = dEx.treasures.length ∧
      (∀ i (hc : i < cs.length) (ht : i < dEx.treasures.length),
        dEx.treasures.get ⟨i, ht⟩ ∈ roomTiles (cs.get ⟨i, hc⟩) ∧
        (∀ q ∈ roomTiles (cs.get ⟨i, hc⟩), wallAt dEx.W dEx.H mEx q.1 q.2 = false) ∧
        boolCount ((roomWallPositions (cs.get ⟨i, hc⟩)).map
          fun q => wallAt dEx.W dEx.H mEx q.1 q.2) = 11) ∧
      (∀ i j (hi : i < cs.length) (hj : j < cs.length), i < j →
        are_rooms_too_close (cs.get ⟨i, hi⟩) (cs.get ⟨j, hj⟩) = false)) :=
  ⟨satisfies_dEx_mEx, by decide,
    C5_treasure_rooms dEx mEx satisfies_dEx_mEx (by decide)⟩

/-- Witness for C4 at the floor tile (2,3) of `dEx`, the treasure-room
entrance. -/
theorem C4_no_2x2_open_witness :
    satisfies dEx mEx = true ∧
    wallAt dEx.W dEx.H mEx 2 3 = false ∧
    (wallAt dEx.W dEx.H mEx (2 + 1) 3 || wallAt dEx.W dEx.H mEx 2 (3 + 1) ||
     wallAt dEx.W dEx.H mEx (2 + 1) (3 + 1)) = true :=
  ⟨satisfies_dEx_mEx, by decide,
    C4_no_2x2_open dEx mEx satisfies_dEx_mEx 2 3 (by decide) (by decide)
      (by decide) (by decide)⟩

/-- Claim C6: when treasures exist but every center combination
conflicts (including a treasure with zero candidate centers), the room
constraint is the empty disjunction, the model is unsatisfiable, and the
program takes the "Impossible" branch rather than any distinct error. -/
theorem C6_no_placement_unsat (d : Dungeon) (_hne : d.treasures ≠ [])
    (hall : (listProd (candidateLists d)).all
      (fun cs => (pairs cs).any fun ab => are_rooms_too_close ab.1 ab.2) = true) :
    survivingCombos d = [] ∧
    (∀ σ : Assignment d.W d.H, satisfies d σ = false) ∧
    reportOf d = Report.impossible := by
  have hsurv : survivingCombos d = [] := by
    rw [survivingCombos]
    rw [List.filter_eq_nil_iff]
    intro cs hcs
    rw [List.all_eq_true] at hall
    have hc := hall cs hcs
    simp [hc]
  have hunsat : ∀ σ : Assignment d.W d.H, satisfies d σ = false := by
    intro σ
    by_contra hc
    rw [Bool.not_eq_false] at hc
    obtain ⟨-, -, -, h4, -, -, -, -, -⟩ := satisfies_parts hc
    rw [roomDisjunction, hsurv] at h4
    simp at h4
  refine ⟨hsurv, hunsat, ?_⟩
  rw [reportOf, if_neg]
  rintro ⟨σ, hσ⟩
  rw [hunsat σ] at hσ
  exact absurd hσ (by simp)

/-- Witness for C6 at `d6`, whose treasure at the corner of a 1x1 grid
has no candidate room center at all. -/
theorem C6_no_placement_unsat_witness :
    d6.treasures ≠ [] ∧
    (listProd (candidateLists d6)).all
      (fun cs => (pairs cs).any fun ab => are_rooms_too_close ab.1 ab.2) = true ∧
    survivingCombos d6 = [] ∧ reportOf d6 = Report.impossible := by
  have h := C6_no_placement_unsat d6 (by decide) (by decide)
  exact ⟨by decide, by decide, h.1, h.2.2⟩

/-- Counterexample to claim C7 as stated: on the instance `d7`, whose
monster coordinate (5,0) is out of bounds for the 1x1 grid, the program
does not reject the input before compiling constraints — it compiles and
asserts the full constraint set (the monster lookup resolving to the
`out_of_bounds` variable), finds it unsatisfiable and prints the
ordinary "Impossible" message.  The embedded control flow has no
input-validation branch at all. -/
theorem C7_counterexample : reportOf d7 = Report.impossible := by
  rw [reportOf, if_neg]
  rintro ⟨σ, hσ⟩
  obtain ⟨h1, h2, -, -, -, -, -, -, -⟩ := satisfies_parts hσ
  have hw := h2 (5, 0) (by decide)
  rw [wallAt_oob σ (Or.inl (by decide)), h1] at hw
  exact absurd hw (by simp)

/-- Claim C7 as amended: the program performs no input validation.  An
out-of-bounds monster or treasure coordinate is neither rejected,
truncated nor wrapped; its non-wall constraint attaches to the always-true
`out_of_bounds` variable, so the compiled model is unsatisfiable and the
program reports the ordinary "Impossible" outcome. -/
theorem C7_oob_not_rejected (d : Dungeon) (p : ℤ × ℤ)
    (hp : p ∈ d.monsters ++ d.treasures)
    (hoob : ¬(0 ≤ p.1 ∧ p.1 < (d.W : ℤ)) ∨ ¬(0 ≤ p.2 ∧ p.2 < (d.H : ℤ))) :
    (∀ σ : Assignment d.W d.H, satisfies d σ = false) ∧
    reportOf d = Report.impossible := by
  have hunsat : ∀ σ : Assignment d.W d.H, satisfies d σ = false := by
    intro σ
    by_contra hc
    rw [Bool.not_eq_false] at hc
    obtain ⟨h1, h2, -, -, -, -, -, -, -⟩ := satisfies_parts hc
    have hw := h2 p hp
    rw [wallAt_oob σ hoob, h1] at hw
    exact absurd hw (by simp)
  refine ⟨hunsat, ?_⟩
  rw [reportOf, if_neg]
  rintro ⟨σ, hσ⟩
  rw [hunsat σ] at hσ
  exact absurd hσ (by simp)

/-- Witness for the amended C7 at `d7` and its out-of-bounds monster. -/
theorem C7_oob_not_rejected_witness :
    (5, 0) ∈ d7.monsters ++ d7.treasures ∧ reportOf d7 = Report.impossible :=
  ⟨by decide,
    (C7_oob_not_rejected d7 (5, 0) (by decide) (Or.inl (by decide))).2⟩

/-- In a valid enumeration trace, every later model satisfies the
blocking clause of every earlier model. -/
theorem trace_blocks {d : Dungeon} :
    ∀ {ms : List (Assignment d.W d.H)}, traceOK d ms = true →
      ∀ i j (hi : i < ms.length) (hj : j < ms.length), i < j →
        blocks d.W d.H (ms.get ⟨i, hi⟩) (ms.get ⟨j, hj⟩) = true := by
  intro ms
  induction ms with
  | nil => intro _ i j hi _ _; simp at hi
  | cons m rest ih =>
    intro h i j hi hj hij
    rw [traceOK, Bool.and_eq_true, Bool.and_eq_true] at h
    obtain ⟨⟨_, hblk⟩, htr⟩ := h
    cases i with
    | zero =>
      cases j with
      | zero => omega
      | succ k =>
        rw [List.all_eq_true] at hblk
        exact hblk _ (List.get_mem rest _ _)
    | succ n =>
      cases j with
      | zero => omega
      | succ k => exact ih htr n k (by simpa using hi) (by simpa using hj) (by omega)

/-- A model whose wall grid equals the recorded model's wall grid
falsifies the recorded model's blocking clause. -/
theorem blocks_false_of_walls_eq {W H : ℕ} {m σ : Assignment W H}
    (h : σ.2.1 = m.2.1) : blocks W H m σ = false := by
  rw [blocks]
  rw [List.any_eq_false]
  intro p hp
  obtain ⟨h1, h2, h3, h4⟩ := mem_tiles.mp hp
  rw [wallAt_inb σ ⟨h1, h2⟩ ⟨h3, h4⟩, wallAt_inb m ⟨h1, h2⟩ ⟨h3, h4⟩, h]
  simp

/-- Two models at distinct positions of an enumeration trace differ in
their wall grids. -/
theorem trace_walls_ne {d : Dungeon} {ms : List (Assignment d.W d.H)}
    (h : traceOK d ms = true) {i j : ℕ} (hi : i < ms.length) (hj : j < ms.length)
    (hne : i ≠ j) : (ms.get ⟨i, hi⟩).2.1 ≠ (ms.get ⟨j, hj⟩).2.1 := by
  intro heq
  rcases Nat.lt_or_ge i j with hlt | hge
  · have hb := trace_blocks h i j hi hj hlt
    rw [blocks_false_of_walls_eq heq.symm] at hb
    exact absurd hb (by simp)
  · have hlt : j < i := by omega
    have hb := trace_blocks h j i hj hi hlt
    rw [blocks_false_of_walls_eq heq] at hb
    exact absurd hb (by simp)

/-- Claim C8: across one enumeration run, no two recorded models agree
on the wall value of every in-bounds tile; moreover a blocking clause
evaluates to false on any model with the same wall grid as the recorded
one, so that exact wall assignment is unsatisfiable in every later
check. -/
theorem C8_no_repeat (d : Dungeon) (ms : List (Assignment d.W d.H))
    (h : traceOK d ms = true) :
    (∀ i j (hi : i < ms.length) (hj : j < ms.length), i ≠ j →
      (ms.get ⟨i, hi⟩).2.1 ≠ (ms.get ⟨j, hj⟩).2.1) ∧
    (∀ i (hi : i < ms.length) (σ : Assignment d.W d.H),
      σ.2.1 = (ms.get ⟨i, hi⟩).2.1 → blocks d.W d.H (ms.get ⟨i, hi⟩) σ = false) := by
  constructor
  · intro i j hi hj hne
    exact trace_walls_ne h hi hj hne
  · intro i hi σ heq
    exact blocks_false_of_walls_eq heq

/-- Witness for C8 on the two-solution trace of the 2x2 instance. -/
theorem C8_no_repeat_witness :
    traceOK d2 [mA, mB] = true ∧ mA.2.1 ≠ mB.2.1 :=
  ⟨by decide,
    (C8_no_repeat d2 [mA, mB] (by decide)).1 0 1 (by decide) (by decide)
      (by decide)⟩

/-- Claim C9: rendering a recorded model to the character grid and
parsing it back (monster and treasure glyphs reading as non-wall)
reproduces the model's wall value at every in-bounds tile. -/
theorem C9_round_trip (d : Dungeon) (σ : Assignment d.W d.H)
    (h : satisfies d σ = true) :
    parseGrid (render d σ) =
      (List.range d.H).map fun (y : ℕ) =>
        (List.range d.W).map fun (x : ℕ) => wallAt d.W d.H σ (x : ℤ) (y : ℤ) := by
  obtain ⟨-, h2, -, -, -, -, -, -, -⟩ := satisfies_parts h
  rw [parseGrid, render, List.map_map]
  apply List.map_congr_left
  intro y _
  dsimp only [Function.comp]
  rw [List.map_map]
  apply List.map_congr_left
  intro x _
  dsimp only [Function.comp]
  rw [renderChar]
  by_cases hm : d.monsters.contains ((x : ℤ), (y : ℤ)) = true
  · rw [if_pos hm]
    have hmem : ((x : ℤ), (y : ℤ)) ∈ d.monsters := by simpa using hm
    have hw := h2 _ (List.mem_append_left _ hmem)
    rw [hw]
    decide
  · rw [if_neg hm]
    by_cases ht : d.treasures.contains ((x : ℤ), (y : ℤ)) = true
    · rw [if_pos ht]
      have hmem : ((x : ℤ), (y : ℤ)) ∈ d.treasures := by simpa using ht
      have hw := h2 _ (List.mem_append_right _ hmem)
      rw [hw]
      decide
    · rw [if_neg ht]
      by_cases hw : wallAt d.W d.H σ (x : ℤ) (y : ℤ) = true
      · rw [if_pos hw, hw]
        decide
      · rw [if_neg hw, Bool.not_eq_true] at *
        rw [hw]
        decide

/-- Witness for C9 at the concrete solved instance: parsing the render
of `mEx` gives back exactly the wall rows. -/
theorem C9_round_trip_witness :
    satisfies dEx mEx = true ∧ parseGrid (render dEx mEx) = exWallRows := by
  refine ⟨satisfies_dEx_mEx, ?_⟩
  rw [C9_round_trip dEx mEx satisfies_dEx_mEx]
  decide

/-- Claim C10: the enumeration loop records at most `2 ^ (W*H)` models:
each blocking clause removes the found wall grid, so the recorded wall
grids are pairwise distinct elements of a finite type of that
cardinality. -/
theorem C10_bounded (d : Dungeon) (ms : List (Assignment d.W d.H))
    (h : traceOK d ms = true) : ms.length ≤ 2 ^ (d.W * d.H) := by
  have hl : (ms.map fun σ => σ.2.1).length = ms.length := List.length_map _ _
  have hnodup : (ms.map fun σ => σ.2.1).Nodup := by
    rw [List.nodup_iff_injective_get]
    intro a b heq
    rw [List.get_eq_getElem, List.get_eq_getElem, List.getElem_map,
      List.getElem_map] at heq
    by_contra hne
    have hne' : a.val ≠ b.val := fun hv => hne (Fin.ext hv)
    have ha : a.val < ms.length := by have := a.2; omega
    have hb : b.val < ms.length := by have := b.2; omega
    exact trace_walls_ne h ha hb hne' heq
  have hcard := List.Nodup.length_le_card hnodup
  rw [hl] at hcard
  calc ms.length ≤ Fintype.card (Fin d.W → Fin d.H → Bool) := hcard
    _ = 2 ^ (d.W * d.H) := by
        rw [Fintype.card_fun, Fintype.card_fun, Fintype.card_bool,
          Fintype.card_fin, Fintype.card_fin, ← pow_mul, Nat.mul_comm]

/-- Witness for C10 on the two-solution trace of the 2x2 instance. -/
theorem C10_bounded_witness :
    traceOK d2 [mA, mB] = true ∧ [mA, mB].length ≤ 2 ^ (d2.W * d2.H) :=
  ⟨by decide, C10_bounded d2 [mA, mB] (by decide)⟩

end DnD
